import Mathlib

/-! Shallow embedding of the executable core of Habit Tracker Pro
(src/script.js): a DOMContentLoaded listener that logs a startup notice,
looks up the elements with ids mainButton and output, and, when both are
present, attaches a click listener that overwrites the output element's
innerHTML with a timestamped greeting paragraph. -/

/-- Two-digit zero padding, as the en-US time formatter renders the minute
and second fields. -/
def pad2 (n : Nat) : String :=
  if n < 10 then "0" ++ Nat.repr n else Nat.repr n

/-- Twelve-hour clock figure shown for an hour-of-day value. -/
def twelveHour (h : Nat) : Nat :=
  if h % 12 = 0 then 12 else h % 12

/-- Meridiem marker shown for an hour-of-day value. -/
def meridiem (h : Nat) : String :=
  if h < 12 then "AM" else "PM"

/-- Rendering of a second-of-day value d (0 ≤ d < 86400) in the en-US
time-of-day format h:mm:ss AM or h:mm:ss PM. -/
def timeOfDayString (d : Nat) : String :=
  Nat.repr (twelveHour (d / 3600)) ++ ":" ++ pad2 (d % 3600 / 60) ++ ":" ++
    pad2 (d % 60) ++ " " ++ meridiem (d / 3600)

/-- Models the host Date toLocaleTimeString call of the default en-US
locale: the wall-clock instant t, counted in seconds, is reduced to its
second-resolution time of day and rendered as h:mm:ss AM or h:mm:ss PM.
Locale formatting is implementation-defined; this is the reference
formatting used by the scenario of the specification, and it carries no
date component, only a time of day. -/
def toLocaleTimeString (t : Nat) : String :=
  timeOfDayString (t % 86400)

/-- The startup notice logged by the DOMContentLoaded listener. -/
def loadedMessage : String := "Habit Tracker Pro loaded successfully!"

/-- The fixed greeting text. -/
def greeting : String := "Hello from Habit Tracker Pro!"

/-- The markup assigned to the innerHTML of the output element by the
click listener when a click happens at wall-clock time t. -/
def clickMessage (t : Nat) : String :=
  "<p>Hello from Habit Tracker Pro! Button clicked at " ++ toLocaleTimeString t ++ "</p>"

/-- The document as the script sees it: mainButton and output record
whether getElementById finds the respective element, and outputContent is
the current innerHTML of the output element. -/
structure Dom where
  mainButton : Bool
  output : Bool
  outputContent : String
deriving DecidableEq

/-- Page state: the document, the console log, and whether the click
listener has been attached (Bound) or not (Unbound). -/
structure AppState where
  dom : Dom
  consoleLog : List String
  clickHandlerBound : Bool
deriving DecidableEq

/-- The events the page delivers to the script: the DOMContentLoaded
signal, and user clicks carrying the wall-clock time in seconds at which
they happen. -/
inductive Event where
  | domContentLoaded
  | click (t : Nat)
deriving DecidableEq

/-- The DOMContentLoaded listener body of src/script.js: log the startup
notice, look up both elements, and attach the click listener only when
both are present. -/
def onDomContentLoaded (s : AppState) : AppState :=
  let s1 : AppState := { s with consoleLog := s.consoleLog ++ [loadedMessage] }
  if s1.dom.mainButton && s1.dom.output then
    { s1 with clickHandlerBound := true }
  else
    s1

/-- One step of the page. DOMContentLoaded runs the listener above and
never throws. A click runs the click listener when it is attached; the
listener assigns output.innerHTML, which would throw only if the output
element were gone. A click with no listener attached does nothing. -/
def step (s : AppState) (e : Event) : Except String AppState :=
  match e with
  | Event.domContentLoaded => Except.ok (onDomContentLoaded s)
  | Event.click t =>
    if s.clickHandlerBound then
      if s.dom.output then
        Except.ok { s with dom := { s.dom with outputContent := clickMessage t } }
      else
        Except.error "TypeError: output element is gone"
    else
      Except.ok s

/-- Delivers a sequence of events, stopping at the first uncaught error. -/
def runEvents (s : AppState) : List Event → Except String AppState
  | [] => Except.ok s
  | e :: es =>
    match step s e with
    | Except.ok s1 => runEvents s1 es
    | Except.error msg => Except.error msg

lemma onDomContentLoaded_dom (s : AppState) : (onDomContentLoaded s).dom = s.dom := by
  cases hm : s.dom.mainButton <;> cases ho : s.dom.output <;>
    simp [onDomContentLoaded, hm, ho]

lemma onDomContentLoaded_log (s : AppState) :
    (onDomContentLoaded s).consoleLog = s.consoleLog ++ [loadedMessage] := by
  cases hm : s.dom.mainButton <;> cases ho : s.dom.output <;>
    simp [onDomContentLoaded, hm, ho]

lemma onDomContentLoaded_bound (s : AppState) :
    (onDomContentLoaded s).clickHandlerBound =
      (s.dom.mainButton && s.dom.output || s.clickHandlerBound) := by
  cases hm : s.dom.mainButton <;> cases ho : s.dom.output <;>
    simp [onDomContentLoaded, hm, ho]

lemma str_ext (s t : String) (h : s.data = t.data) : s = t := String.ext h

lemma str_length_append (a b : String) : (a ++ b).length = a.length + b.length := by
  show (a ++ b).data.length = a.data.length + b.data.length
  rw [String.data_append]
  exact List.length_append _ _

lemma str_append_inj (a b c d : String) (h : a ++ b = c ++ d)
    (hl : a.length = c.length) : a = c ∧ b = d := by
  have hdata : a.data ++ b.data = c.data ++ d.data := by
    have h2 := congrArg String.data h
    simpa [String.data_append] using h2
  obtain ⟨h1, h2⟩ := List.append_inj hdata hl
  exact ⟨String.ext h1, String.ext h2⟩

lemma str_append_inj_right (a b c d : String) (h : a ++ b = c ++ d)
    (hl : b.length = d.length) : a = c ∧ b = d := by
  have hdata : a.data ++ b.data = c.data ++ d.data := by
    have h2 := congrArg String.data h
    simpa [String.data_append] using h2
  obtain ⟨h1, h2⟩ := List.append_inj' hdata hl
  exact ⟨String.ext h1, String.ext h2⟩

lemma str_cancel_left (s a b : String) (h : s ++ a = s ++ b) : a = b :=
  (str_append_inj s a s b h rfl).2

lemma pad2_length : ∀ n < 100, (pad2 n).length = 2 := by decide

lemma meridiem_length (h : Nat) : (meridiem h).length = 2 := by
  unfold meridiem
  split <;> rfl

lemma pad2_inj : ∀ a < 60, ∀ b < 60, pad2 a = pad2 b → a = b := by decide

lemma hour_inj : ∀ a < 24, ∀ b < 24,
    Nat.repr (twelveHour a) = Nat.repr (twelveHour b) → meridiem a = meridiem b → a = b := by
  decide

lemma timeOfDayString_assoc (d : Nat) :
    timeOfDayString d =
      Nat.repr (twelveHour (d / 3600)) ++
        (":" ++ (pad2 (d % 3600 / 60) ++ (":" ++ (pad2 (d % 60) ++ (" " ++ meridiem (d / 3600)))))) := by
  simp [timeOfDayString, String.append_assoc]

lemma timeOfDayString_inj (d1 d2 : Nat) (hd1 : d1 < 86400) (hd2 : d2 < 86400)
    (h : timeOfDayString d1 = timeOfDayString d2) : d1 = d2 := by
  rw [timeOfDayString_assoc, timeOfDayString_assoc] at h
  have hm1 : d1 % 3600 / 60 < 100 := by omega
  have hm2 : d2 % 3600 / 60 < 100 := by omega
  have hs1 : d1 % 60 < 100 := by omega
  have hs2 : d2 % 60 < 100 := by omega
  have lb1 : (":" ++ (pad2 (d1 % 3600 / 60) ++
      (":" ++ (pad2 (d1 % 60) ++ (" " ++ meridiem (d1 / 3600)))))).length = 9 := by
    simp only [str_length_append, pad2_length _ hm1, pad2_length _ hs1, meridiem_length]
    rfl
  have lb2 : (":" ++ (pad2 (d2 % 3600 / 60) ++
      (":" ++ (pad2 (d2 % 60) ++ (" " ++ meridiem (d2 / 3600)))))).length = 9 := by
    simp only [str_length_append, pad2_length _ hm2, pad2_length _ hs2, meridiem_length]
    rfl
  obtain ⟨hr, hrest⟩ := str_append_inj_right _ _ _ _ h (by rw [lb1, lb2])
  have hrest2 := str_cancel_left ":" _ _ hrest
  obtain ⟨hm, hrest3⟩ := str_append_inj _ _ _ _ hrest2
    (by rw [pad2_length _ hm1, pad2_length _ hm2])
  have hrest4 := str_cancel_left ":" _ _ hrest3
  obtain ⟨hs, hrest5⟩ := str_append_inj _ _ _ _ hrest4
    (by rw [pad2_length _ hs1, pad2_length _ hs2])
  have hmer := str_cancel_left " " _ _ hrest5
  have hH : d1 / 3600 = d2 / 3600 := hour_inj _ (by omega) _ (by omega) hr hmer
  have hM : d1 % 3600 / 60 = d2 % 3600 / 60 := pad2_inj _ (by omega) _ (by omega) hm
  have hS : d1 % 60 = d2 % 60 := pad2_inj _ (by omega) _ (by omega) hs
  omega

lemma toLocaleTimeString_inj (t1 t2 : Nat)
    (h : toLocaleTimeString t1 = toLocaleTimeString t2) : t1 % 86400 = t2 % 86400 :=
  timeOfDayString_inj _ _ (Nat.mod_lt _ (by omega)) (Nat.mod_lt _ (by omega)) h

lemma clickMessage_inj (t1 t2 : Nat) (h : clickMessage t1 = clickMessage t2) :
    toLocaleTimeString t1 = toLocaleTimeString t2 := by
  unfold clickMessage at h
  obtain ⟨h1, -⟩ := str_append_inj_right _ _ _ _ h rfl
  exact str_cancel_left _ _ _ h1

lemma lit_split : "<p>Hello from Habit Tracker Pro! Button clicked at " =
    "<p>" ++ greeting ++ " Button clicked at " := by decide

lemma lit_split2 : "<p>Hello from Habit Tracker Pro! Button clicked at " =
    "<p>" ++ "Hello from Habit Tracker Pro! Button clicked at " := by decide

lemma clickMessage_decomp (t : Nat) :
    clickMessage t = "<p>" ++ greeting ++ " Button clicked at " ++ toLocaleTimeString t ++ "</p>" := by
  unfold clickMessage
  rw [lit_split]

lemma greeting_in_clickMessage (t : Nat) : greeting.data <:+: (clickMessage t).data := by
  refine ⟨"<p>".data, (" Button clicked at " ++ toLocaleTimeString t ++ "</p>").data, ?_⟩
  rw [clickMessage_decomp]
  simp [String.data_append, List.append_assoc]

lemma phrase_in_clickMessage (t : Nat) :
    (greeting ++ " Button clicked at " ++ toLocaleTimeString t).data <:+: (clickMessage t).data := by
  refine ⟨"<p>".data, "</p>".data, ?_⟩
  rw [clickMessage_decomp]
  simp [String.data_append, List.append_assoc]

lemma runClicks_snoc (tN : Nat) : ∀ (ts : List Nat) (s : AppState),
    s.clickHandlerBound = true → s.dom.output = true →
    ∃ s2, runEvents s ((ts ++ [tN]).map Event.click) = Except.ok s2 ∧
      s2.dom.outputContent = clickMessage tN ∧
      s2.clickHandlerBound = true ∧ s2.dom.output = true := by
  intro ts
  induction ts with
  | nil =>
    intro s hb ho
    refine ⟨{ s with dom := { s.dom with outputContent := clickMessage tN } }, ?_, rfl, hb, ho⟩
    simp [runEvents, step, hb, ho]
  | cons t ts ih =>
    intro s hb ho
    obtain ⟨s2, hrun, hc, hb2, ho2⟩ :=
      ih { s with dom := { s.dom with outputContent := clickMessage t } } hb ho
    refine ⟨s2, ?_, hc, hb2, ho2⟩
    simpa [runEvents, step, hb, ho] using hrun

/-- C1: when both the mainButton and the output element are present at
initialization, delivering DOMContentLoaded and then exactly one click
succeeds and replaces the content of the output element with a string in
which the exact substring "Hello from Habit Tracker Pro!" occurs. -/
theorem single_click_writes_greeting (s : AppState) (t : Nat)
    (hm : s.dom.mainButton = true) (ho : s.dom.output = true) :
    ∃ s2, runEvents s [Event.domContentLoaded, Event.click t] = Except.ok s2 ∧
      greeting.data <:+: s2.dom.outputContent.data := by
  have hb1 : (onDomContentLoaded s).clickHandlerBound = true := by
    rw [onDomContentLoaded_bound, hm, ho]
    rfl
  have ho1 : (onDomContentLoaded s).dom.output = true := by
    rw [onDomContentLoaded_dom]
    exact ho
  refine ⟨{ onDomContentLoaded s with
      dom := { (onDomContentLoaded s).dom with outputContent := clickMessage t } }, ?_, ?_⟩
  · simp [runEvents, step, hb1, ho1]
  · exact greeting_in_clickMessage t

/-- Witness for C1 at a concrete page and click time. -/
theorem single_click_writes_greeting_witness :
    ∃ s2, runEvents ⟨⟨true, true, ""⟩, [], false⟩
        [Event.domContentLoaded, Event.click 52200] = Except.ok s2 ∧
      greeting.data <:+: s2.dom.outputContent.data :=
  single_click_writes_greeting ⟨⟨true, true, ""⟩, [], false⟩ 52200 rfl rfl

/-- C2: after initialization with both elements present, a click at time t
writes exactly one paragraph whose text is exactly the fixed prefix
followed by the formatted time of day; moreover, at the mocked clock time
14:30:00 (second 52200 of the day) the written markup contains the exact
substring "Hello from Habit Tracker Pro! Button clicked at 2:30:00 PM". -/
theorem click_writes_exact_paragraph (s : AppState) (t : Nat)
    (hm : s.dom.mainButton = true) (ho : s.dom.output = true) :
    (∃ s2, runEvents s [Event.domContentLoaded, Event.click t] = Except.ok s2 ∧
      s2.dom.outputContent =
        "<p>" ++ "Hello from Habit Tracker Pro! Button clicked at " ++
          toLocaleTimeString t ++ "</p>") ∧
    "Hello from Habit Tracker Pro! Button clicked at 2:30:00 PM".data <:+:
      (clickMessage 52200).data := by
  constructor
  · have hb1 : (onDomContentLoaded s).clickHandlerBound = true := by
      rw [onDomContentLoaded_bound, hm, ho]
      rfl
    have ho1 : (onDomContentLoaded s).dom.output = true := by
      rw [onDomContentLoaded_dom]
      exact ho
    refine ⟨{ onDomContentLoaded s with
        dom := { (onDomContentLoaded s).dom with outputContent := clickMessage t } }, ?_, ?_⟩
    · simp [runEvents, step, hb1, ho1]
    · show clickMessage t = _
      unfold clickMessage
      rw [lit_split2]
  · decide

/-- Witness for C2 at a concrete page and the mocked click time. -/
theorem click_writes_exact_paragraph_witness :
    (∃ s2, runEvents ⟨⟨true, true, ""⟩, [], false⟩
        [Event.domContentLoaded, Event.click 52200] = Except.ok s2 ∧
      s2.dom.outputContent =
        "<p>" ++ "Hello from Habit Tracker Pro! Button clicked at " ++
          toLocaleTimeString 52200 ++ "</p>") ∧
    "Hello from Habit Tracker Pro! Button clicked at 2:30:00 PM".data <:+:
      (clickMessage 52200).data :=
  click_writes_exact_paragraph ⟨⟨true, true, ""⟩, [], false⟩ 52200 rfl rfl

/-- C3 counterexample: the claim reads the message as the greeting text
immediately followed by the time string; at the concrete activation time
14:30:00 the message the click listener actually writes does not contain
the greeting directly adjacent to the formatted time. -/
theorem greeting_time_not_adjacent :
    runEvents ⟨⟨true, true, ""⟩, [], false⟩ [Event.domContentLoaded, Event.click 52200] =
      Except.ok ⟨⟨true, true, clickMessage 52200⟩, [loadedMessage], true⟩ ∧
    ¬ (greeting ++ toLocaleTimeString 52200).data <:+: (clickMessage 52200).data := by
  constructor
  · rfl
  · decide

/-- C3 (amended): after initialization with both elements present, the
message written by a click at time t contains the greeting text followed
by the formatted time of day, the two separated by the fixed label
" Button clicked at " rather than directly adjacent. -/
theorem greeting_then_label_then_time (s : AppState) (t : Nat)
    (hm : s.dom.mainButton = true) (ho : s.dom.output = true) :
    ∃ s2, runEvents s [Event.domContentLoaded, Event.click t] = Except.ok s2 ∧
      (greeting ++ " Button clicked at " ++ toLocaleTimeString t).data <:+:
        s2.dom.outputContent.data := by
  have hb1 : (onDomContentLoaded s).clickHandlerBound = true := by
    rw [onDomContentLoaded_bound, hm, ho]
    rfl
  have ho1 : (onDomContentLoaded s).dom.output = true := by
    rw [onDomContentLoaded_dom]
    exact ho
  refine ⟨{ onDomContentLoaded s with
      dom := { (onDomContentLoaded s).dom with outputContent := clickMessage t } }, ?_, ?_⟩
  · simp [runEvents, step, hb1, ho1]
  · exact phrase_in_clickMessage t

/-- Witness for the amended C3 at a concrete page and click time. -/
theorem greeting_then_label_then_time_witness :
    ∃ s2, runEvents ⟨⟨true, true, ""⟩, [], false⟩
        [Event.domContentLoaded, Event.click 52200] = Except.ok s2 ∧
      (greeting ++ " Button clicked at " ++ toLocaleTimeString 52200).data <:+:
        s2.dom.outputContent.data :=
  greeting_then_label_then_time ⟨⟨true, true, ""⟩, [], false⟩ 52200 rfl rfl

/-- C4: for any N at least 1 click times, written as a possibly empty
prefix ts followed by a last click time tN, initializing with both
elements present and then delivering all N clicks succeeds and leaves the
output element holding exactly the message of the last click: every click
overwrites the display content wholesale and nothing accumulates. -/
theorem repeated_clicks_last_wins (s : AppState) (ts : List Nat) (tN : Nat)
    (hm : s.dom.mainButton = true) (ho : s.dom.output = true) :
    ∃ s2, runEvents s (Event.domContentLoaded :: (ts ++ [tN]).map Event.click) =
        Except.ok s2 ∧
      s2.dom.outputContent = clickMessage tN := by
  have hb1 : (onDomContentLoaded s).clickHandlerBound = true := by
    rw [onDomContentLoaded_bound, hm, ho]
    rfl
  have ho1 : (onDomContentLoaded s).dom.output = true := by
    rw [onDomContentLoaded_dom]
    exact ho
  obtain ⟨s2, hrun, hc, -, -⟩ := runClicks_snoc tN ts (onDomContentLoaded s) hb1 ho1
  refine ⟨s2, ?_, hc⟩
  simpa [runEvents, step] using hrun

/-- Witness for C4: three clicks, the display ends with the third message. -/
theorem repeated_clicks_last_wins_witness :
    ∃ s2, runEvents ⟨⟨true, true, ""⟩, [], false⟩
        (Event.domContentLoaded :: ([1, 2] ++ [3]).map Event.click) = Except.ok s2 ∧
      s2.dom.outputContent = clickMessage 3 :=
  repeated_clicks_last_wins ⟨⟨true, true, ""⟩, [], false⟩ [1, 2] 3 rfl rfl

/-- C5: if at least one of the two elements is missing, initialization
still succeeds with no exception and the click listener stays unattached,
and any later click — in particular when only the output element is
missing — does nothing and does not throw. -/
theorem missing_element_inert (s : AppState)
    (hu : s.clickHandlerBound = false)
    (h : s.dom.mainButton = false ∨ s.dom.output = false) :
    ∃ s1, step s Event.domContentLoaded = Except.ok s1 ∧
      s1.clickHandlerBound = false ∧
      ∀ t, step s1 (Event.click t) = Except.ok s1 := by
  have hb : (onDomContentLoaded s).clickHandlerBound = false := by
    rw [onDomContentLoaded_bound, hu]
    rcases h with h | h <;> simp [h]
  refine ⟨onDomContentLoaded s, rfl, hb, ?_⟩
  intro t
  simp [step, hb]

/-- Witness for C5: a page whose output element is missing. -/
theorem missing_element_inert_witness :
    ∃ s1, step ⟨⟨true, false, ""⟩, [], false⟩ Event.domContentLoaded = Except.ok s1 ∧
      s1.clickHandlerBound = false ∧
      ∀ t, step s1 (Event.click t) = Except.ok s1 :=
  missing_element_inert ⟨⟨true, false, ""⟩, [], false⟩ rfl (Or.inr rfl)

/-- C6 counterexample: two activations whose wall-clock times differ by a
full day — 86400 seconds, which is at least one second — write identical
strings, because the formatted value carries only the time of day; the
claim as stated therefore fails for this pair. -/
theorem time_repeats_after_one_day :
    (86400 : Nat) ≥ 1 ∧
    step ⟨⟨true, true, ""⟩, [], true⟩ (Event.click 0) =
      Except.ok ⟨⟨true, true, clickMessage 0⟩, [], true⟩ ∧
    step ⟨⟨true, true, ""⟩, [], true⟩ (Event.click 86400) =
      Except.ok ⟨⟨true, true, clickMessage 86400⟩, [], true⟩ ∧
    toLocaleTimeString 0 = toLocaleTimeString 86400 ∧
    clickMessage 0 = clickMessage 86400 := by
  refine ⟨by omega, rfl, rfl, by decide, by decide⟩

/-- C6 (amended): two activations whose wall-clock times differ by at
least one second and by less than twenty-four hours write strings whose
time parts differ, hence differing display contents. -/
theorem time_sensitivity_within_day (s1 s2 : AppState) (t1 t2 : Nat)
    (hb1 : s1.clickHandlerBound = true) (ho1 : s1.dom.output = true)
    (hb2 : s2.clickHandlerBound = true) (ho2 : s2.dom.output = true)
    (hlo : t1 + 1 ≤ t2) (hhi : t2 < t1 + 86400) :
    ∃ u1 u2, step s1 (Event.click t1) = Except.ok u1 ∧
      step s2 (Event.click t2) = Except.ok u2 ∧
      toLocaleTimeString t1 ≠ toLocaleTimeString t2 ∧
      u1.dom.outputContent ≠ u2.dom.outputContent := by
  have hne : toLocaleTimeString t1 ≠ toLocaleTimeString t2 := by
    intro hh
    have := toLocaleTimeString_inj _ _ hh
    omega
  refine ⟨{ s1 with dom := { s1.dom with outputContent := clickMessage t1 } },
          { s2 with dom := { s2.dom with outputContent := clickMessage t2 } },
          ?_, ?_, hne, ?_⟩
  · simp [step, hb1, ho1]
  · simp [step, hb2, ho2]
  · exact fun hc => hne (clickMessage_inj t1 t2 hc)

/-- Witness for the amended C6: clicks one second apart. -/
theorem time_sensitivity_within_day_witness :
    ∃ u1 u2, step ⟨⟨true, true, ""⟩, [], true⟩ (Event.click 0) = Except.ok u1 ∧
      step ⟨⟨true, true, ""⟩, [], true⟩ (Event.click 1) = Except.ok u2 ∧
      toLocaleTimeString 0 ≠ toLocaleTimeString 1 ∧
      u1.dom.outputContent ≠ u2.dom.outputContent :=
  time_sensitivity_within_day ⟨⟨true, true, ""⟩, [], true⟩ ⟨⟨true, true, ""⟩, [], true⟩
    0 1 rfl rfl rfl rfl (by decide) (by decide)

/-- C7: initialization never raises: for every page state, delivering
DOMContentLoaded succeeds, appends exactly the one fixed startup notice to
the console log, leaves the document untouched, and its only further
effect is to attach the click listener exactly when both elements are
present — no additional log output and no error signal. -/
theorem init_logs_once_never_throws (s : AppState) :
    ∃ s1, step s Event.domContentLoaded = Except.ok s1 ∧
      s1.consoleLog = s.consoleLog ++ [loadedMessage] ∧
      s1.dom = s.dom ∧
      s1.clickHandlerBound = (s.dom.mainButton && s.dom.output || s.clickHandlerBound) :=
  ⟨onDomContentLoaded s, rfl, onDomContentLoaded_log s, onDomContentLoaded_dom s,
    onDomContentLoaded_bound s⟩

/-- C8: the binding component has exactly the two states Unbound and Bound
modelled by the Boolean clickHandlerBound; no step ever unbinds an
attached listener, and the only step that attaches it is DOMContentLoaded
delivered when both elements are present. -/
theorem bound_state_monotone :
    (∀ s : AppState, s.clickHandlerBound = true ∨ s.clickHandlerBound = false) ∧
    (∀ s s2 : AppState, ∀ e, step s e = Except.ok s2 →
      s.clickHandlerBound = true → s2.clickHandlerBound = true) ∧
    (∀ s s2 : AppState, ∀ e, step s e = Except.ok s2 →
      s.clickHandlerBound = false → s2.clickHandlerBound = true →
      e = Event.domContentLoaded ∧ s.dom.mainButton = true ∧ s.dom.output = true) := by
  refine ⟨fun s => ?_, fun s s2 e hstep hb => ?_, fun s s2 e hstep hb hb2 => ?_⟩
  · cases s.clickHandlerBound
    · exact Or.inr rfl
    · exact Or.inl rfl
  · cases e with
    | domContentLoaded =>
      have hs : onDomContentLoaded s = s2 := by simpa [step] using hstep
      rw [← hs, onDomContentLoaded_bound, hb]
      simp
    | click t =>
      cases hout : s.dom.output with
      | true =>
        have hs : { s with dom := { s.dom with outputContent := clickMessage t } } = s2 := by
          simpa [step, hb, hout] using hstep
        rw [← hs]
        exact hb
      | false =>
        simp [step, hb, hout] at hstep
  · cases e with
    | domContentLoaded =>
      have hs : onDomContentLoaded s = s2 := by simpa [step] using hstep
      rw [← hs, onDomContentLoaded_bound, hb] at hb2
      simp at hb2
      exact ⟨rfl, hb2.1, hb2.2⟩
    | click t =>
      have hs : s = s2 := by simpa [step, hb] using hstep
      rw [← hs, hb] at hb2
      exact Bool.noConfusion hb2

/-- Witness for C8: the monotonicity part applied to a concrete bound
state and a concrete click. -/
theorem bound_state_monotone_witness :
    (⟨⟨true, true, clickMessage 0⟩, [], true⟩ : AppState).clickHandlerBound = true :=
  bound_state_monotone.2.1 ⟨⟨true, true, ""⟩, [], true⟩
    ⟨⟨true, true, clickMessage 0⟩, [], true⟩ (Event.click 0) rfl rfl

/-- C9: no state is retained between activations: clicks at the same
wall-clock time t, delivered in two arbitrary bound page states with
arbitrary different histories, write identical display content, namely
the message determined by t alone. -/
theorem activation_depends_only_on_time (s1 s2 : AppState) (t : Nat)
    (hb1 : s1.clickHandlerBound = true) (ho1 : s1.dom.output = true)
    (hb2 : s2.clickHandlerBound = true) (ho2 : s2.dom.output = true) :
    ∃ u1 u2, step s1 (Event.click t) = Except.ok u1 ∧
      step s2 (Event.click t) = Except.ok u2 ∧
      u1.dom.outputContent = u2.dom.outputContent ∧
      u1.dom.outputContent = clickMessage t := by
  refine ⟨{ s1 with dom := { s1.dom with outputContent := clickMessage t } },
          { s2 with dom := { s2.dom with outputContent := clickMessage t } },
          ?_, ?_, rfl, rfl⟩
  · simp [step, hb1, ho1]
  · simp [step, hb2, ho2]

/-- Witness for C9: the same click time in two pages with different
histories. -/
theorem activation_depends_only_on_time_witness :
    ∃ u1 u2, step ⟨⟨true, true, ""⟩, [], true⟩ (Event.click 7) = Except.ok u1 ∧
      step ⟨⟨true, true, "old"⟩, [loadedMessage], true⟩ (Event.click 7) = Except.ok u2 ∧
      u1.dom.outputContent = u2.dom.outputContent ∧
      u1.dom.outputContent = clickMessage 7 :=
  activation_depends_only_on_time ⟨⟨true, true, ""⟩, [], true⟩
    ⟨⟨true, true, "old"⟩, [loadedMessage], true⟩ 7 rfl rfl rfl rfl

/-- C10: when both elements are present, initialization writes nothing to
the output element: after the DOMContentLoaded step attaches the listener,
the content of the output element is exactly what it was before. -/
theorem init_preserves_output_content (s : AppState)
    (hm : s.dom.mainButton = true) (ho : s.dom.output = true) :
    ∃ s1, step s Event.domContentLoaded = Except.ok s1 ∧
      s1.clickHandlerBound = true ∧
      s1.dom.outputContent = s.dom.outputContent := by
  refine ⟨onDomContentLoaded s, rfl, ?_, ?_⟩
  · rw [onDomContentLoaded_bound, hm, ho]
    rfl
  · rw [onDomContentLoaded_dom]

/-- Witness for C10: a page whose output element starts with prior
content. -/
theorem init_preserves_output_content_witness :
    ∃ s1, step ⟨⟨true, true, "before"⟩, [], false⟩ Event.domContentLoaded = Except.ok s1 ∧
      s1.clickHandlerBound = true ∧
      s1.dom.outputContent = (⟨⟨true, true, "before"⟩, [], false⟩ : AppState).dom.outputContent :=
  init_preserves_output_content ⟨⟨true, true, "before"⟩, [], false⟩ rfl rfl
